import Mathlib

/-!
Verification of the SOCKS5 proxy implementation: a shallow embedding of the
wire codec (`src/proto.rs`, `src/tcp_server_stream/async_proto.rs`,
`src/tcp_sock_stream/sync_proto.rs`), the server session state machine
(`src/tcp_server_stream.rs`), the splice relay direction
(`src/tcp_server_stream/copy.rs`), and the client address classification
(`impl FromStr for Address` in `src/proto.rs`).

Bytes are modelled as `Nat` (a faithful byte list additionally satisfies
`∀ b, b < 256`, stated as a hypothesis where it matters).  A byte stream is a
`List Nat`; a decoder consumes bytes from the front and returns the decoded
value together with the unconsumed remainder.
-/

namespace Socks

/-- `AuthMethod` from `src/proto.rs` (strict variant set: the source has no
`Other(u8)` constructor). -/
inductive AuthMethod where
  | noAuth
  | gssApi
  | userPass
deriving DecidableEq

/-- `impl Into<u8> for &AuthMethod` in `src/proto.rs`. -/
def AuthMethod.toByte : AuthMethod → Nat
  | .noAuth => 0x00
  | .gssApi => 0x01
  | .userPass => 0x02

/-- `impl TryFrom<u8> for AuthMethod` in `src/proto.rs`: bytes other than
`0x00/0x01/0x02` are an `InvalidData` error, modelled as `none`. -/
def AuthMethod.fromByte (b : Nat) : Option AuthMethod :=
  if b = 0x00 then some .noAuth
  else if b = 0x01 then some .gssApi
  else if b = 0x02 then some .userPass
  else none

/-- `Address` from `src/proto.rs`.  A Rust `String` is represented by its
UTF-8 bytes; `Ipv4Addr` by its four octets; `Ipv6Addr` by its 16 octets. -/
inductive Address where
  | ipv4 (a b c d : Nat)
  | domainName (dn : List Nat)
  | ipv6 (octets : List Nat)
deriving DecidableEq

/-- `Address::as_bytes` in `src/proto.rs` (`dn.len() as u8` truncates the
length to a byte, hence the `% 256`). -/
def Address.asBytes : Address → List Nat
  | .ipv4 a b c d => [0x01, a, b, c, d]
  | .domainName dn => 0x03 :: dn.length % 256 :: dn
  | .ipv6 o => 0x04 :: o

/-- `EMPTY_ADDRESS` in `src/proto.rs`. -/
def emptyAddress : Address := .ipv4 0 0 0 0

/-- `ClientCommand` from `src/proto.rs`. -/
inductive ClientCommand where
  | establishConnection
  | establishPortBinding
  | associateUdpPort
deriving DecidableEq

/-- `ClientCommand as u8` (discriminants in `src/proto.rs`). -/
def ClientCommand.toByte : ClientCommand → Nat
  | .establishConnection => 0x01
  | .establishPortBinding => 0x02
  | .associateUdpPort => 0x03

/-- `impl TryFrom<u8> for ClientCommand` in `src/proto.rs`. -/
def ClientCommand.fromByte (b : Nat) : Option ClientCommand :=
  if b = 0x01 then some .establishConnection
  else if b = 0x02 then some .establishPortBinding
  else if b = 0x03 then some .associateUdpPort
  else none

/-- `ServerStatus` from `src/proto.rs`. -/
inductive ServerStatus where
  | requestGranted
  | generalFailure
  | connectionNotAllowedByRuleset
  | networkUnreachable
  | hostUnreachable
  | connectionRefusedByDestinationHost
  | ttlExpired
  | commandNotSupported
  | addressTypeNotSupported
deriving DecidableEq

/-- `impl Into<u8> for ServerStatus` in `src/proto.rs`. -/
def ServerStatus.toByte : ServerStatus → Nat
  | .requestGranted => 0x00
  | .generalFailure => 0x01
  | .connectionNotAllowedByRuleset => 0x02
  | .networkUnreachable => 0x03
  | .hostUnreachable => 0x04
  | .connectionRefusedByDestinationHost => 0x05
  | .ttlExpired => 0x06
  | .commandNotSupported => 0x07
  | .addressTypeNotSupported => 0x08

/-- `impl TryFrom<u8> for ServerStatus` in `src/proto.rs`. -/
def ServerStatus.fromByte (b : Nat) : Option ServerStatus :=
  if b = 0x00 then some .requestGranted
  else if b = 0x01 then some .generalFailure
  else if b = 0x02 then some .connectionNotAllowedByRuleset
  else if b = 0x03 then some .networkUnreachable
  else if b = 0x04 then some .hostUnreachable
  else if b = 0x05 then some .connectionRefusedByDestinationHost
  else if b = 0x06 then some .ttlExpired
  else if b = 0x07 then some .commandNotSupported
  else if b = 0x08 then some .addressTypeNotSupported
  else none

/-- `ClientConnectionRequest` from `src/proto.rs`. -/
structure ClientConnectionRequest where
  cmd : ClientCommand
  destAddr : Address
  destPort : Nat
deriving DecidableEq

/-- `ServerResponse` from `src/proto.rs`. -/
structure ServerResponse where
  status : ServerStatus
  boundAddress : Address
  boundPort : Nat
deriving DecidableEq

/-- `u16::to_be_bytes` for a port (`% 256` reflects the byte width). -/
def portBytes (p : Nat) : List Nat := [p / 256 % 256, p % 256]

/-- `ClientGreeting::write_to` in `src/proto.rs` (the byte buffer it writes):
`[0x05, nmethods, methods…]`, with the length truncated to a byte by the
`as u8` cast. -/
def encodeGreeting (ms : List AuthMethod) : List Nat :=
  0x05 :: ms.length % 256 :: ms.map AuthMethod.toByte

/-- `ClientConnectionRequest::write_to` in
`src/tcp_sock_stream/sync_proto.rs` (the byte buffer it writes). -/
def encodeRequest (r : ClientConnectionRequest) : List Nat :=
  0x05 :: r.cmd.toByte :: 0x00 :: (r.destAddr.asBytes ++ portBytes r.destPort)

/-- `ServerResponse::as_bytes` in `src/proto.rs`. -/
def ServerResponse.asBytes (r : ServerResponse) : List Nat :=
  0x05 :: r.status.toByte :: 0x00 :: (r.boundAddress.asBytes ++ portBytes r.boundPort)

/-- Continuation byte test of RFC 3629 UTF-8. -/
def isCont (b : Nat) : Bool := 0x80 ≤ b && b ≤ 0xBF

/-- Validity of a byte list as UTF-8, as enforced by `String::from_utf8`
in the domain-name branch of the address decoders (RFC 3629 table). -/
def utf8Valid : List Nat → Bool
  | [] => true
  | b :: rest =>
    if b ≤ 0x7F then utf8Valid rest
    else if 0xC2 ≤ b ∧ b ≤ 0xDF then
      match rest with
      | c1 :: r => isCont c1 && utf8Valid r
      | [] => false
    else if b = 0xE0 then
      match rest with
      | c1 :: c2 :: r => (0xA0 ≤ c1 && c1 ≤ 0xBF) && isCont c2 && utf8Valid r
      | _ => false
    else if (0xE1 ≤ b ∧ b ≤ 0xEC) ∨ (0xEE ≤ b ∧ b ≤ 0xEF) then
      match rest with
      | c1 :: c2 :: r => isCont c1 && isCont c2 && utf8Valid r
      | _ => false
    else if b = 0xED then
      match rest with
      | c1 :: c2 :: r => (0x80 ≤ c1 && c1 ≤ 0x9F) && isCont c2 && utf8Valid r
      | _ => false
    else if b = 0xF0 then
      match rest with
      | c1 :: c2 :: c3 :: r => (0x90 ≤ c1 && c1 ≤ 0xBF) && isCont c2 && isCont c3 && utf8Valid r
      | _ => false
    else if 0xF1 ≤ b ∧ b ≤ 0xF3 then
      match rest with
      | c1 :: c2 :: c3 :: r => isCont c1 && isCont c2 && isCont c3 && utf8Valid r
      | _ => false
    else if b = 0xF4 then
      match rest with
      | c1 :: c2 :: c3 :: r => (0x80 ≤ c1 && c1 ≤ 0x8F) && isCont c2 && isCont c3 && utf8Valid r
      | _ => false
    else false

/-- Error kinds produced by the decoders (the `io::ErrorKind` classes used in
the source: `UnexpectedEof` from `read_exact`, and the `InvalidData` /
`InvalidInput` constructions, distinguished here by which check failed). -/
inductive DecErr where
  | shortRead
  | badVersion
  | badReserved
  | badCommand
  | badAuthMethod
  | badAtyp
  | badUtf8
  | badStatus
deriving DecidableEq

/-- Result of running a decoder on a byte stream.  `ok v rest` returns the
decoded value and the unconsumed bytes; `panicked` marks an out-of-bounds
`Vec` index (a Rust panic, not an `io::Error`). -/
inductive DecRes (α : Type) where
  | ok (v : α) (rest : List Nat)
  | err (e : DecErr)
  | panicked
deriving DecidableEq

/-- `try_collect` over `AuthMethod::try_from` as used by
`ClientGreeting::read_from_stream`: fails at the first undecodable byte. -/
def tryCollectAuth : List Nat → Option (List AuthMethod)
  | [] => some []
  | b :: rest =>
    match AuthMethod.fromByte b with
    | none => none
    | some m => (tryCollectAuth rest).map (m :: ·)

/-- `ClientGreeting::read_from_stream` in
`src/tcp_server_stream/async_proto.rs`: `read_exact` two header bytes, check
the version, then `take(nauth).read_to_end` — which reads *at most* `nauth`
bytes and succeeds with fewer if the stream ends — and convert each byte. -/
def decodeGreeting (B : List Nat) : DecRes (List AuthMethod) :=
  match B with
  | b0 :: b1 :: rest =>
    if b0 ≠ 0x05 then .err .badVersion
    else
      match tryCollectAuth (rest.take b1) with
      | some ms => .ok ms (rest.drop b1)
      | none => .err .badAuthMethod
  | _ => .err .shortRead

/-- `Address::read_from_stream` in `src/tcp_server_stream/async_proto.rs`
(identical to `Recievable for Address` in `src/proto.rs`): one ATYP byte,
then 4 octets, or a length-prefixed UTF-8 domain, or 16 octets. -/
def decodeAddress (B : List Nat) : DecRes Address :=
  match B with
  | [] => .err .shortRead
  | t :: r =>
    if t = 0x01 then
      match r with
      | a :: b :: c :: d :: rest => .ok (.ipv4 a b c d) rest
      | _ => .err .shortRead
    else if t = 0x03 then
      match r with
      | l :: rest =>
        if rest.length < l then .err .shortRead
        else if utf8Valid (rest.take l) then .ok (.domainName (rest.take l)) (rest.drop l)
        else .err .badUtf8
      | [] => .err .shortRead
    else if t = 0x04 then
      if r.length < 16 then .err .shortRead
      else .ok (.ipv6 (r.take 16)) (r.drop 16)
    else .err .badAtyp

/-- `ClientConnectionRequest::read_from_stream` in
`src/tcp_server_stream/async_proto.rs`.  The header is read with
`take(3).read_to_end(&mut buf)`, which succeeds with *fewer* than 3 bytes at
end of stream; the subsequent `buf[0]` / `buf[2]` indexing then panics.  The
checks happen in source order: `buf[0]` (version), `buf[2]` (reserved),
`buf[1]` (command), then address, then the two port bytes via `read_exact`. -/
def decodeRequest (B : List Nat) : DecRes ClientConnectionRequest :=
  match B with
  | [] => .panicked
  | [b0] => if b0 ≠ 0x05 then .err .badVersion else .panicked
  | [b0, _] => if b0 ≠ 0x05 then .err .badVersion else .panicked
  | b0 :: b1 :: b2 :: rest3 =>
    if b0 ≠ 0x05 then .err .badVersion
    else if b2 ≠ 0x00 then .err .badReserved
    else
      match ClientCommand.fromByte b1 with
      | none => .err .badCommand
      | some cmd =>
        match decodeAddress rest3 with
        | .err e => .err e
        | .panicked => .panicked
        | .ok addr rest =>
          match rest with
          | p1 :: p2 :: rest2 => .ok ⟨cmd, addr, p1 * 256 + p2⟩ rest2
          | _ => .err .shortRead

/-- `Recievable for ServerResponse` (`read_from`) in `src/proto.rs`:
`read_exact` 3 bytes, check version, parse status, check the reserved byte,
then address and port. -/
def decodeResponse (B : List Nat) : DecRes ServerResponse :=
  match B with
  | b0 :: b1 :: b2 :: rest =>
    if b0 ≠ 0x05 then .err .badVersion
    else
      match ServerStatus.fromByte b1 with
      | none => .err .badStatus
      | some st =>
        if b2 ≠ 0 then .err .badReserved
        else
          match decodeAddress rest with
          | .err e => .err e
          | .panicked => .panicked
          | .ok addr rest2 =>
            match rest2 with
            | p1 :: p2 :: rest3 => .ok ⟨st, addr, p1 * 256 + p2⟩ rest3
            | _ => .err .shortRead
  | _ => .err .shortRead

/-- Well-formed address in the sense of the data model: IPv4 octets are
bytes, a domain name has 1..=255 UTF-8 bytes, an IPv6 address has 16 octets
that are bytes. -/
def WFAddress : Address → Prop
  | .ipv4 a b c d => a < 256 ∧ b < 256 ∧ c < 256 ∧ d < 256
  | .domainName dn => 1 ≤ dn.length ∧ dn.length ≤ 255 ∧ utf8Valid dn = true
  | .ipv6 o => o.length = 16 ∧ ∀ x ∈ o, x < 256

instance : DecidablePred WFAddress := fun a => by
  cases a <;> simp only [WFAddress] <;> infer_instance

/-! ## Server session state machine (`src/tcp_server_stream.rs`)

`ClientStream::handle` chains `read_client_greeting`, `choose_auth_method`,
`read_connect_request` and `serve_connect_request` with `and_then`: any error
short-circuits the rest.  Writes always succeed in this model (write failures
only re-raise an `io::Error`, which no claim is about); the first component of
each result is the list of bytes written to the client socket. -/

instance {ε α : Type} [DecidableEq ε] [DecidableEq α] : DecidableEq (Except ε α)
  | .ok a, .ok b =>
    if h : a = b then isTrue (by rw [h]) else isFalse (by simp [h])
  | .ok _, .error _ => isFalse (by simp)
  | .error _, .ok _ => isFalse (by simp)
  | .error e, .error f =>
    if h : e = f then isTrue (by rw [h]) else isFalse (by simp [h])

/-- Classes of `io::ErrorKind` a failing `TcpStream::connect` can produce
(the errno classes named by the spec; the source does not inspect them). -/
inductive DialErrKind where
  | connectionRefused
  | hostUnreachable
  | networkUnreachable
  | ttlExpired
  | other
deriving DecidableEq

/-- Outcome of the `TcpStream::connect` call in `serve_connect_request`. -/
inductive DialOutcome where
  | ok
  | err (k : DialErrKind)
deriving DecidableEq

/-- Errors a server session can terminate with. -/
inductive SessErr where
  | greetingDecode (e : DecErr)
  | noAuthSupported
  | requestDecode (e : DecErr)
  | panicked
  | commandNotSupported
  | dialFailed (k : DialErrKind)
deriving DecidableEq

/-- `ClientStream::serve_connect_request` in `src/tcp_server_stream.rs`:
a non-Connect command returns an `InvalidInput` error (writing nothing); a
failed dial re-raises the `io::Error` via `?` (writing nothing); a successful
dial writes the RequestGranted reply and relays. -/
def serveConnectRequest (r : ClientConnectionRequest) (dial : DialOutcome) :
    List Nat × Except SessErr Unit :=
  if r.cmd ≠ ClientCommand.establishConnection then
    ([], .error .commandNotSupported)
  else
    match dial with
    | .ok => ((ServerResponse.mk .requestGranted emptyAddress 0).asBytes, .ok ())
    | .err k => ([], .error (.dialFailed k))

/-- `ClientStream::read_connect_request` followed by
`serve_connect_request`: a request decode error writes a GeneralFailure reply
and terminates; a panic unwinds writing nothing. -/
def sessionAfterAuth (B : List Nat) (dial : DialOutcome) :
    List Nat × Except SessErr Unit :=
  match decodeRequest B with
  | .ok r _ => serveConnectRequest r dial
  | .err e => ((ServerResponse.mk .generalFailure emptyAddress 0).asBytes, .error (.requestDecode e))
  | .panicked => ([], .error .panicked)

/-- `ClientStream::handle` in `src/tcp_server_stream.rs`: read the greeting
(on decode error write `05 FF` and terminate), choose the auth method
(`choose_auth_method`: write `05 00` if NoAuth is offered, else write `05 FF`
and terminate), then process the request. -/
def session (B : List Nat) (dial : DialOutcome) : List Nat × Except SessErr Unit :=
  match decodeGreeting B with
  | .ok g rest =>
    if AuthMethod.noAuth ∈ g then
      let after := sessionAfterAuth rest dial
      (0x05 :: 0x00 :: after.1, after.2)
    else ([0x05, 0xFF], .error .noAuthSupported)
  | .err e => ([0x05, 0xFF], .error (.greetingDecode e))
  | .panicked => ([], .error .panicked)

/-! ## Splice relay direction (`src/tcp_server_stream/copy.rs`)

`SpliceFuture::poll` runs a loop over the state `(num_buf, read_done)`.  One
iteration of that loop is modelled by `loopIter`; the environment `IterEnv`
supplies the outcomes of the system calls the iteration may make, and the
returned action list records which I/O operations the iteration performed.
The action vocabulary includes `shutdownWrite` so the spec's expected
shutdown is expressible; the source never performs it. -/

/-- The mutable state of a `SpliceFuture` (`num_buf`, `read_done`). -/
structure SpliceState where
  numBuf : Nat
  readDone : Bool
deriving DecidableEq

/-- Outcome of a `try_io`-wrapped `splice(2)` call. -/
inductive IoOutcome where
  | ok (n : Nat)
  | wouldBlock
  | fail
deriving DecidableEq

/-- Outcome of `poll_read_ready` / `poll_write_ready`. -/
inductive Readiness where
  | ready
  | notReady
  | failed
deriving DecidableEq

/-- Observable side effects of one loop iteration. -/
inductive SpliceAction where
  | spliceRead
  | spliceWrite
  | waitReadable
  | waitWritable
  | shutdownWrite
deriving DecidableEq

/-- The system-call outcomes available to one loop iteration. -/
structure IterEnv where
  readOutcome : IoOutcome
  readReadiness : Readiness
  writeOutcome : IoOutcome
  writeReadiness : Readiness
deriving DecidableEq

/-- How one loop iteration of `SpliceFuture::poll` ends: loop again, suspend
(`Poll::Pending`), or return `Poll::Ready` with success or an error. -/
inductive IterResult where
  | continueLoop (s : SpliceState)
  | pendingAt (s : SpliceState)
  | readyOk (s : SpliceState)
  | readyErr (s : SpliceState)
deriving DecidableEq

/-- Lines 194–223 of `copy.rs`: the completion check
`num_buf == 0 && read_done` and the write phase. -/
def writePhase (s : SpliceState) (e : IterEnv) (acts : List SpliceAction) :
    IterResult × List SpliceAction :=
  if s.numBuf = 0 ∧ s.readDone = true then (.readyOk s, acts)
  else if s.numBuf = 0 then (.continueLoop s, acts)
  else
    match e.writeOutcome with
    | .ok n => (.continueLoop { s with numBuf := s.numBuf - n }, acts ++ [.spliceWrite])
    | .fail => (.readyErr s, acts ++ [.spliceWrite])
    | .wouldBlock =>
      match e.writeReadiness with
      | .ready => (.continueLoop s, acts ++ [.spliceWrite, .waitWritable])
      | .failed => (.readyErr s, acts ++ [.spliceWrite, .waitWritable])
      | .notReady => (.pendingAt s, acts ++ [.spliceWrite, .waitWritable])

/-- Lines 184–191 of `copy.rs`: when nothing is buffered and the read side is
not done, register for read readiness (`ready!` suspends on `Pending`). -/
def registerReadPhase (s : SpliceState) (e : IterEnv) (acts : List SpliceAction) :
    IterResult × List SpliceAction :=
  if s.numBuf = 0 ∧ s.readDone = false then
    match e.readReadiness with
    | .ready => (.continueLoop s, acts ++ [.waitReadable])
    | .failed => (.readyErr s, acts ++ [.waitReadable])
    | .notReady => (.pendingAt s, acts ++ [.waitReadable])
  else writePhase s e acts

/-- One iteration of the `TransferState::Running` loop of
`SpliceFuture::poll` (lines 159–224 of `copy.rs`). -/
def loopIter (s : SpliceState) (e : IterEnv) : IterResult × List SpliceAction :=
  if s.readDone then writePhase s e []
  else
    match e.readOutcome with
    | .fail => (.readyErr s, [.spliceRead])
    | .ok n =>
      let s1 := if n = 0 then { s with readDone := true } else { s with numBuf := s.numBuf + n }
      registerReadPhase s1 e [.spliceRead]
    | .wouldBlock => registerReadPhase s e [.spliceRead]

/-- `splice_bidirectional` in `copy.rs`: `select!` over the two directions;
if the first direction to finish returns an error, that error is returned at
once (the other direction is dropped); otherwise the other direction is
awaited.  `firstDone` is the result of whichever direction finished first,
`other` the eventual result of the other; the `Bool` records whether the
other direction was awaited. -/
def spliceBidirectional (firstDone : Except Unit Unit) (other : Except Unit Unit) :
    Bool × Except Unit Unit :=
  match firstDone with
  | .error e => (false, .error e)
  | .ok _ => (true, other)

/-! ## Client address classification (`impl FromStr for Address`)

`from_str` in `src/proto.rs` calls `s.parse::<std::net::SocketAddr>()` and
maps a `V4`/`V6` socket address to the corresponding variant, treating any
parse failure as a domain name.  The Rust standard library's socket-address
parser (`core::net::parser`) is external to the repository; the following
definitions model it: an IPv4 socket address is `a.b.c.d:port` (each octet at
most 3 decimal digits, no redundant leading zero, value ≤ 255), an IPv6
socket address is `[groups]:port` with hexadecimal 16-bit groups, one
optional `::` gap, an optional trailing embedded IPv4 pair, and an optional
`%scope` before the closing bracket. -/

/-- Value of a decimal or hexadecimal digit character. -/
def hexVal (c : Char) : Nat :=
  if c.isDigit then c.toNat - 48
  else if 'a' ≤ c && c ≤ 'f' then c.toNat - 87
  else c.toNat - 55

/-- Hexadecimal digit test (`char::to_digit(16)` succeeds). -/
def isHexDigitChar (c : Char) : Bool :=
  c.isDigit || ('a' ≤ c && c ≤ 'f') || ('A' ≤ c && c ≤ 'F')

/-- Digit test for the given radix (10 or 16). -/
def isRadixDigit (radix : Nat) (c : Char) : Bool :=
  if radix = 16 then isHexDigitChar c else c.isDigit

/-- `Parser::read_number` of `core::net::parser`: greedily read digits in
the given radix; fail on no digits, on more than `maxDigits` digits, on a
redundant leading zero when `allowLeadingZero` is off, or on a value
exceeding `maxVal` (the checked-arithmetic overflow of the target type). -/
def parseNum (radix : Nat) (maxDigits : Option Nat) (allowLeadingZero : Bool)
    (maxVal : Nat) (cs : List Char) : Option (Nat × List Char) :=
  let ds := cs.takeWhile (isRadixDigit radix)
  let rest := cs.dropWhile (isRadixDigit radix)
  if ds.isEmpty then none
  else if (match maxDigits with | some m => decide (m < ds.length) | none => false) then none
  else if allowLeadingZero = false ∧ ds.head? = some '0' ∧ 1 < ds.length then none
  else
    let v := ds.foldl (fun a c => a * radix + hexVal c) 0
    if v ≤ maxVal then some (v, rest) else none

/-- Consume one expected character. -/
def expectChar (c : Char) (cs : List Char) : Option (List Char) :=
  match cs with
  | c' :: rest => if c' = c then some rest else none
  | [] => none

/-- One IPv4 octet: `read_number(10, Some(3), false)` into a `u8`. -/
def parseOctet (cs : List Char) : Option (Nat × List Char) :=
  parseNum 10 (some 3) false 255 cs

/-- `Parser::read_ipv4_addr`: four dot-separated octets. -/
def parseIpv4 (cs : List Char) : Option ((Nat × Nat × Nat × Nat) × List Char) := do
  let (a, r1) ← parseOctet cs
  let r2 ← expectChar '.' r1
  let (b, r3) ← parseOctet r2
  let r4 ← expectChar '.' r3
  let (c, r5) ← parseOctet r4
  let r6 ← expectChar '.' r5
  let (d, r7) ← parseOctet r6
  pure ((a, b, c, d), r7)

/-- One IPv6 group: `read_number(16, Some(4), true)` into a `u16`. -/
def parseHexGroup (cs : List Char) : Option (Nat × List Char) :=
  parseNum 16 (some 4) true 65535 cs

/-- `read_groups` of `core::net::parser`: read up to `remaining` further
colon-separated groups (`first` marks the group that needs no separator);
when at least two slots remain, first try a trailing embedded IPv4 address,
which fills two groups and ends the run.  Returns the groups read, the
unconsumed input, and whether the run ended with an embedded IPv4. -/
def readGroupsAux : Nat → Bool → List Char → List Nat × List Char × Bool
  | 0, _, cs => ([], cs, false)
  | r + 1, first, cs =>
    match (if first then some cs else expectChar ':' cs) with
    | none => ([], cs, false)
    | some cs1 =>
      match (if 1 ≤ r then parseIpv4 cs1 else none) with
      | some ((a, b, c, d), rest) => ([a * 256 + b, c * 256 + d], rest, true)
      | none =>
        match parseHexGroup cs1 with
        | some (g, rest) =>
          let t := readGroupsAux r false rest
          (g :: t.1, t.2.1, t.2.2)
        | none => ([], cs, false)

/-- `Parser::read_ipv6_addr`: a head run of groups; a full 8 groups is a
complete address, an embedded IPv4 before 8 groups is invalid, otherwise a
`::` gap of zero groups followed by a tail run bounded so the gap is
nonempty.  Returns the 8 groups. -/
def parseIpv6 (cs : List Char) : Option (List Nat × List Char) :=
  let h := readGroupsAux 8 true cs
  let head := h.1
  if head.length = 8 then some (head, h.2.1)
  else if h.2.2 then none
  else
    match h.2.1 with
    | ':' :: ':' :: rest2 =>
      let t := readGroupsAux (8 - (head.length + 1)) true rest2
      some (head ++ List.replicate (8 - head.length - t.1.length) 0 ++ t.1, t.2.1)
    | _ => none

/-- 16-bit groups to the 16 octets of an `Ipv6Addr`. -/
def groupsToBytes (gs : List Nat) : List Nat :=
  gs.flatMap fun g => [g / 256, g % 256]

/-- A parsed `std::net::SocketAddr`. -/
inductive SockAddrModel where
  | v4 (a b c d : Nat) (port : Nat)
  | v6 (octets : List Nat) (port : Nat)
deriving DecidableEq

/-- `read_socket_addr_v4`: an IPv4 address, `:`, and a `u16` port
(leading zeros allowed in the port). -/
def parseSockV4 (cs : List Char) : Option (SockAddrModel × List Char) := do
  let (q, r1) ← parseIpv4 cs
  let r2 ← expectChar ':' r1
  let (p, r3) ← parseNum 10 none true 65535 r2
  pure (.v4 q.1 q.2.1 q.2.2.1 q.2.2.2 p, r3)

/-- The optional `%scope_id` of a bracketed IPv6 socket address; a failed
scope parse is rewound. -/
def parseScope (cs : List Char) : List Char :=
  match cs with
  | '%' :: rest =>
    match parseNum 10 none true 4294967295 rest with
    | some (_, r) => r
    | none => '%' :: rest
  | _ => cs

/-- `read_socket_addr_v6`: `[`, an IPv6 address, an optional scope, `]`,
`:`, and a `u16` port. -/
def parseSockV6 (cs : List Char) : Option (SockAddrModel × List Char) := do
  let r1 ← expectChar '[' cs
  let (gs, r2) ← parseIpv6 r1
  let r4 ← expectChar ']' (parseScope r2)
  let r5 ← expectChar ':' r4
  let (p, r6) ← parseNum 10 none true 65535 r5
  pure (.v6 (groupsToBytes gs) p, r6)

/-- `FromStr for SocketAddr`: try the V4 form, then the V6 form, and require
the whole string to be consumed. -/
def parseSocketAddr (cs : List Char) : Option SockAddrModel :=
  match parseSockV4 cs with
  | some (sa, rest) => if rest = [] then some sa else none
  | none =>
    match parseSockV6 cs with
    | some (sa, rest) => if rest = [] then some sa else none
    | none => none

/-- Modelled from the spec: "a successful parse as an IPv4 … literal" —
`Ipv4Addr::from_str`, i.e. a dotted quad consuming the whole string.  Used
to state the claim's "IPv4 literal" side; the repository itself never parses
a bare IP literal. -/
def parseIpv4Literal (cs : List Char) : Option (Nat × Nat × Nat × Nat) :=
  match parseIpv4 cs with
  | some (q, []) => some q
  | _ => none

/-- UTF-8 encoding of one character (how a Rust `String` stores it). -/
def utf8EncodeChar (c : Char) : List Nat :=
  let n := c.toNat
  if n < 0x80 then [n]
  else if n < 0x800 then [0xC0 + n / 64, 0x80 + n % 64]
  else if n < 0x10000 then [0xE0 + n / 4096, 0x80 + n / 64 % 64, 0x80 + n % 64]
  else [0xF0 + n / 262144, 0x80 + n / 4096 % 64, 0x80 + n / 64 % 64, 0x80 + n % 64]

/-- UTF-8 bytes of a string (`s.to_owned()` stored into
`Address::DomainName`). -/
def utf8Encode (cs : List Char) : List Nat :=
  cs.flatMap utf8EncodeChar

/-- `impl FromStr for Address` in `src/proto.rs` (lines 127–138): parse the
string as a `std::net::SocketAddr`; `V4`/`V6` yield the ip's variant, any
parse failure yields `DomainName` of the original string. -/
def addressFromStr (cs : List Char) : Address :=
  match parseSocketAddr cs with
  | some (.v4 a b c d _) => .ipv4 a b c d
  | some (.v6 o _) => .ipv6 o
  | none => .domainName (utf8Encode cs)

/-! ## Helper lemmas -/

theorem authMethod_fromByte_toByte (m : AuthMethod) :
    AuthMethod.fromByte m.toByte = some m := by
  cases m <;> rfl

theorem authMethod_toByte_fromByte {b : Nat} {m : AuthMethod}
    (h : AuthMethod.fromByte b = some m) : m.toByte = b := by
  unfold AuthMethod.fromByte at h
  split_ifs at h with h0 h1 h2 <;>
    simp only [Option.some.injEq] at h <;> subst h <;> simp [AuthMethod.toByte, *]

theorem clientCommand_fromByte_toByte (c : ClientCommand) :
    ClientCommand.fromByte c.toByte = some c := by
  cases c <;> rfl

theorem clientCommand_toByte_fromByte {b : Nat} {c : ClientCommand}
    (h : ClientCommand.fromByte b = some c) : c.toByte = b := by
  unfold ClientCommand.fromByte at h
  split_ifs at h with h0 h1 h2 <;>
    simp only [Option.some.injEq] at h <;> subst h <;> simp [ClientCommand.toByte, *]

theorem serverStatus_fromByte_toByte (s : ServerStatus) :
    ServerStatus.fromByte s.toByte = some s := by
  cases s <;> rfl

theorem serverStatus_toByte_fromByte {b : Nat} {s : ServerStatus}
    (h : ServerStatus.fromByte b = some s) : s.toByte = b := by
  unfold ServerStatus.fromByte at h
  split_ifs at h <;>
    simp only [Option.some.injEq] at h <;> subst h <;> simp [ServerStatus.toByte, *]

theorem tryCollectAuth_map (ms : List AuthMethod) :
    tryCollectAuth (ms.map AuthMethod.toByte) = some ms := by
  induction ms with
  | nil => rfl
  | cons m t ih => simp [tryCollectAuth, authMethod_fromByte_toByte, ih]

theorem tryCollectAuth_inv {bs : List Nat} {ms : List AuthMethod}
    (h : tryCollectAuth bs = some ms) : ms.map AuthMethod.toByte = bs := by
  induction bs generalizing ms with
  | nil => simp only [tryCollectAuth, Option.some.injEq] at h; subst h; rfl
  | cons b t ih =>
    simp only [tryCollectAuth] at h
    cases hm : AuthMethod.fromByte b with
    | none => rw [hm] at h; cases h
    | some m =>
      rw [hm] at h
      cases ht : tryCollectAuth t with
      | none => rw [ht] at h; cases h
      | some ms' =>
        rw [ht] at h
        simp only [Option.map, Option.some.injEq] at h
        subst h
        simp [ih ht, authMethod_toByte_fromByte hm]

theorem tryCollectAuth_fails {bs : List Nat} {b : Nat} (hmem : b ∈ bs)
    (hbad : AuthMethod.fromByte b = none) : tryCollectAuth bs = none := by
  induction bs with
  | nil => cases hmem
  | cons a t ih =>
    rcases List.mem_cons.mp hmem with rfl | hm
    · simp [tryCollectAuth, hbad]
    · simp only [tryCollectAuth]
      cases AuthMethod.fromByte a with
      | none => rfl
      | some m => simp [ih hm]

theorem portBytes_val {p : Nat} (h : p < 65536) :
    p / 256 % 256 * 256 + p % 256 = p := by
  omega

/-- Round trip for the address codec: decoding an encoded well-formed
address consumes exactly its bytes. -/
theorem decodeAddress_encode (a : Address) (tail : List Nat) (h : WFAddress a) :
    decodeAddress (a.asBytes ++ tail) = .ok a tail := by
  cases a with
  | ipv4 a b c d => simp [Address.asBytes, decodeAddress]
  | domainName dn =>
    obtain ⟨h1, h2, h3⟩ := h
    have hL : dn.length % 256 = dn.length := Nat.mod_eq_of_lt (by omega)
    simp only [Address.asBytes, hL, List.cons_append, decodeAddress]
    have hlen : ¬ (dn ++ tail).length < dn.length := by
      simp only [List.length_append]; omega
    have htake : (dn ++ tail).take dn.length = dn := List.take_left dn tail
    have hdrop : (dn ++ tail).drop dn.length = tail := List.drop_left dn tail
    simp [hlen, htake, hdrop, h3]
  | ipv6 o =>
    obtain ⟨h1, _⟩ := h
    have hlen : ¬ (o ++ tail).length < 16 := by
      simp only [List.length_append, h1]; omega
    have htake : (o ++ tail).take 16 = o := by rw [← h1]; exact List.take_left o tail
    have hdrop : (o ++ tail).drop 16 = tail := by rw [← h1]; exact List.drop_left o tail
    simp [Address.asBytes, decodeAddress, hlen, htake, hdrop]
    omega

/-- Inverse direction for the address codec: a successful decode consumed
exactly the bytes the decoded address re-encodes to. -/
theorem decodeAddress_inv {B : List Nat} {a : Address} {rest : List Nat}
    (hb : ∀ x ∈ B, x < 256) (h : decodeAddress B = .ok a rest) :
    a.asBytes ++ rest = B := by
  match B with
  | [] => simp [decodeAddress] at h
  | t :: r =>
    simp only [decodeAddress] at h
    split_ifs at h with h1 h3 h4 h7
    · subst h1
      rcases r with _ | ⟨a1, _ | ⟨b1, _ | ⟨c1, _ | ⟨d1, rest'⟩⟩⟩⟩ <;> simp at h
      obtain ⟨rfl, rfl⟩ := h
      simp [Address.asBytes]
    · subst h3
      rcases r with _ | ⟨l, rest'⟩
      · simp at h
      · simp only [] at h
        split_ifs at h with h5 h6
        obtain ⟨rfl, rfl⟩ := h
        have hlen : (rest'.take l).length = l := by
          simp only [List.length_take]; omega
        have hl256 : l < 256 := hb l (by simp)
        simp [Address.asBytes, hlen, Nat.mod_eq_of_lt hl256]
    · subst h4
      obtain ⟨rfl, rfl⟩ := h
      simp [Address.asBytes]

theorem writePhase_readyOk {s s' : SpliceState} {e : IterEnv}
    {acts acts' : List SpliceAction}
    (h : writePhase s e acts = (.readyOk s', acts')) :
    s'.numBuf = 0 ∧ s'.readDone = true := by
  unfold writePhase at h
  rcases e with ⟨ro, rr, wo, wr⟩
  split_ifs at h with h1 h2
  · simp only [Prod.mk.injEq, IterResult.readyOk.injEq] at h
    obtain ⟨rfl, -⟩ := h
    exact ⟨h1.1, h1.2⟩
  · simp at h
  · cases wo <;> cases wr <;> simp_all

theorem registerReadPhase_readyOk {s s' : SpliceState} {e : IterEnv}
    {acts acts' : List SpliceAction}
    (h : registerReadPhase s e acts = (.readyOk s', acts')) :
    s'.numBuf = 0 ∧ s'.readDone = true := by
  unfold registerReadPhase at h
  split_ifs at h with h1
  · rcases e with ⟨ro, rr, wo, wr⟩
    cases rr <;> simp_all
  · exact writePhase_readyOk h

/-! ## Claims -/

/-- C1, amended: when the TCP dial of a Connect request fails,
`serve_connect_request` writes **no** reply at all — the `io::Error` is
re-raised by `?` and the connection is closed.  No errno-to-status mapping
exists in the source. -/
theorem c1_dial_failure_writes_nothing (r : ClientConnectionRequest) (k : DialErrKind)
    (h : r.cmd = ClientCommand.establishConnection) :
    serveConnectRequest r (.err k) = ([], .error (.dialFailed k)) := by
  simp [serveConnectRequest, h]

/-- C1, counterexample: for a Connect request refused by the destination the
server writes no bytes, not the claimed reply `05 05 00 01 00 00 00 00 00 00`. -/
theorem c1_counterexample :
    (serveConnectRequest ⟨.establishConnection, .ipv4 127 0 0 1, 80⟩
      (.err .connectionRefused)).1 = []
    ∧ (serveConnectRequest ⟨.establishConnection, .ipv4 127 0 0 1, 80⟩
      (.err .connectionRefused)).1 ≠ [5, 5, 0, 1, 0, 0, 0, 0, 0, 0] := by
  decide

theorem c1_witness :
    serveConnectRequest ⟨.establishConnection, .ipv4 127 0 0 1, 80⟩
      (.err .connectionRefused) = ([], .error (.dialFailed .connectionRefused)) :=
  c1_dial_failure_writes_nothing ⟨.establishConnection, .ipv4 127 0 0 1, 80⟩
    .connectionRefused rfl

/-- C4: if the decoded greeting's method list contains NoAuth the session
writes `05 00` and proceeds to the request phase; otherwise it writes
`05 FF` and terminates with an error (`choose_auth_method` in
`src/tcp_server_stream.rs`). -/
theorem c4_auth_method_choice (B : List Nat) (g : List AuthMethod)
    (rest : List Nat) (dial : DialOutcome)
    (h : decodeGreeting B = .ok g rest) :
    (AuthMethod.noAuth ∈ g →
      session B dial =
        (0x05 :: 0x00 :: (sessionAfterAuth rest dial).1, (sessionAfterAuth rest dial).2))
    ∧ (AuthMethod.noAuth ∉ g →
      session B dial = ([0x05, 0xFF], .error .noAuthSupported)) := by
  constructor <;> intro hm <;> simp [session, h, hm]

theorem c4_witness :
    session [5, 1, 0] DialOutcome.ok =
      (0x05 :: 0x00 :: (sessionAfterAuth [] DialOutcome.ok).1,
        (sessionAfterAuth [] DialOutcome.ok).2)
    ∧ session [5, 1, 2] DialOutcome.ok = ([0x05, 0xFF], .error .noAuthSupported) :=
  ⟨(c4_auth_method_choice [5, 1, 0] [.noAuth] [] .ok (by decide)).1 (by decide),
   (c4_auth_method_choice [5, 1, 2] [.userPass] [] .ok (by decide)).2 (by decide)⟩

/-- C5, amended: a greeting whose method list contains a byte outside
`{0x00, 0x01, 0x02}` makes the decoder **fail** with an `InvalidData` error
(`AuthMethod::try_from` is strict); no opaque `Other(u8)` value exists. -/
theorem c5_unknown_method_rejected (bs : List Nat) (b : Nat) (hmem : b ∈ bs)
    (hbad : AuthMethod.fromByte b = none) (_hlen : bs.length ≤ 255) :
    decodeGreeting (0x05 :: bs.length :: bs) = .err .badAuthMethod := by
  simp [decodeGreeting, List.take_length, tryCollectAuth_fails hmem hbad]

/-- C5, counterexample: on the greeting `05 01 03` (one method, unknown byte
`0x03`) the decoder does not succeed — it returns an error, contradicting
the claimed opaque `Other(0x03)` preservation. -/
theorem c5_counterexample :
    decodeGreeting [5, 1, 3] = .err .badAuthMethod
    ∧ ¬ ∃ (ms : List AuthMethod) (rest : List Nat),
        decodeGreeting [5, 1, 3] = .ok ms rest := by
  refine ⟨by decide, ?_⟩
  rintro ⟨ms, rest, h⟩
  rw [show decodeGreeting [5, 1, 3] = .err .badAuthMethod from by decide] at h
  cases h

theorem c5_witness :
    decodeGreeting (0x05 :: [(3 : Nat)].length :: [3]) = .err .badAuthMethod :=
  c5_unknown_method_rejected [3] 3 (by decide) (by decide) (by decide)

/-- C6: the request decoder panics (out-of-bounds `Vec` index after
`take(3).read_to_end`) on streams of 0–2 bytes instead of returning a
ShortRead error, while the other decoders return `ShortRead` on truncated
input as the claim states. -/
theorem c6_request_decoder_panics :
    decodeRequest [] = .panicked
    ∧ decodeRequest [5] = .panicked
    ∧ decodeRequest [5, 1] = .panicked
    ∧ decodeGreeting [] = .err .shortRead
    ∧ decodeAddress [] = .err .shortRead
    ∧ decodeResponse [] = .err .shortRead := by
  decide

/-- C7, amended: a request whose command is not Connect (UdpAssociate or
Bind) makes `serve_connect_request` return an `InvalidInput` error and close
the connection **without writing any reply** — no CommandNotSupported reply
is sent. -/
theorem c7_non_connect_writes_nothing (r : ClientConnectionRequest) (d : DialOutcome)
    (h : r.cmd = ClientCommand.associateUdpPort ∨ r.cmd = ClientCommand.establishPortBinding) :
    serveConnectRequest r d = ([], .error .commandNotSupported) := by
  rcases h with h | h <;> simp [serveConnectRequest, h]

/-- C7, counterexample: for a UdpAssociate request the server writes no
bytes, not the claimed CommandNotSupported reply
`05 07 00 01 00 00 00 00 00 00`. -/
theorem c7_counterexample :
    (serveConnectRequest ⟨.associateUdpPort, .ipv4 0 0 0 0, 9⟩ .ok).1 = []
    ∧ (serveConnectRequest ⟨.associateUdpPort, .ipv4 0 0 0 0, 9⟩ .ok).1
        ≠ [5, 7, 0, 1, 0, 0, 0, 0, 0, 0] := by
  decide

theorem c7_witness :
    serveConnectRequest ⟨.associateUdpPort, .ipv4 0 0 0 0, 9⟩ .ok
      = ([], .error .commandNotSupported) :=
  c7_non_connect_writes_nothing ⟨.associateUdpPort, .ipv4 0 0 0 0, 9⟩ .ok (Or.inl rfl)

/-- C8, amended: a splice direction's loop iteration returns
`Poll::Ready(Ok(()))` exactly from a state with `read_done ∧ num_buf == 0`
(any completing iteration ends in such a state, and from such a state the
iteration completes at once performing no further I/O); and when the first
direction of `splice_bidirectional` completes successfully the other
direction is still awaited.  The write half of the destination is **not**
shut down at completion (see the counterexample). -/
theorem c8_direction_completion :
    (∀ (s s' : SpliceState) (e : IterEnv) (acts : List SpliceAction),
        loopIter s e = (.readyOk s', acts) → s'.readDone = true ∧ s'.numBuf = 0)
    ∧ (∀ (s : SpliceState) (e : IterEnv), s.readDone = true → s.numBuf = 0 →
        loopIter s e = (.readyOk s, []))
    ∧ (∀ other : Except Unit Unit, spliceBidirectional (.ok ()) other = (true, other)) := by
  refine ⟨?_, ?_, fun other => rfl⟩
  · intro s s' e acts h
    unfold loopIter at h
    split_ifs at h with hrd
    · have hh := writePhase_readyOk h
      exact ⟨hh.2, hh.1⟩
    · rcases e with ⟨ro, rr, wo, wr⟩
      dsimp only at h
      cases ro with
      | fail => simp at h
      | ok n =>
        have hh := registerReadPhase_readyOk h
        exact ⟨hh.2, hh.1⟩
      | wouldBlock =>
        have hh := registerReadPhase_readyOk h
        exact ⟨hh.2, hh.1⟩
  · intro s e h1 h2
    simp [loopIter, writePhase, h1, h2]

/-- C8, counterexample: the completing iteration (from
`num_buf = 0 ∧ read_done`) performs no `shutdown` of the writer's write
half — its action list is empty, contradicting the claimed shutdown. -/
theorem c8_counterexample :
    (loopIter ⟨0, true⟩ ⟨.wouldBlock, .notReady, .wouldBlock, .notReady⟩).1
      = .readyOk ⟨0, true⟩
    ∧ SpliceAction.shutdownWrite ∉
      (loopIter ⟨0, true⟩ ⟨.wouldBlock, .notReady, .wouldBlock, .notReady⟩).2 := by
  decide

theorem c8_witness :
    loopIter ⟨0, true⟩ ⟨.wouldBlock, .notReady, .wouldBlock, .notReady⟩
      = (.readyOk ⟨0, true⟩, []) :=
  c8_direction_completion.2.1 ⟨0, true⟩ ⟨.wouldBlock, .notReady, .wouldBlock, .notReady⟩
    rfl rfl

/-- C2: decoding the encoding of any well-formed greeting (1..=255 methods
with defined tags), request (supported command, well-formed address, u16
port) or reply (defined status, well-formed address, u16 port) yields the
original message with no bytes left over. -/
theorem c2_encode_decode_roundtrip :
    (∀ ms : List AuthMethod, 1 ≤ ms.length → ms.length ≤ 255 →
      decodeGreeting (encodeGreeting ms) = .ok ms [])
    ∧ (∀ r : ClientConnectionRequest, WFAddress r.destAddr → r.destPort < 65536 →
      decodeRequest (encodeRequest r) = .ok r [])
    ∧ (∀ resp : ServerResponse, WFAddress resp.boundAddress → resp.boundPort < 65536 →
      decodeResponse resp.asBytes = .ok resp []) := by
  refine ⟨?_, ?_, ?_⟩
  · intro ms h1 h2
    have hL : ms.length % 256 = ms.length := Nat.mod_eq_of_lt (by omega)
    have ht : (ms.map AuthMethod.toByte).take ms.length = ms.map AuthMethod.toByte := by
      apply List.take_of_length_le; simp
    have hd : (ms.map AuthMethod.toByte).drop ms.length = [] := by
      apply List.drop_eq_nil_of_le; simp
    simp [encodeGreeting, decodeGreeting, hL, ht, hd, tryCollectAuth_map]
  · intro r ha hp
    obtain ⟨cmd, addr, p⟩ := r
    have haddr := decodeAddress_encode addr (portBytes p) ha
    simp only [portBytes] at haddr
    simp [encodeRequest, decodeRequest, clientCommand_fromByte_toByte, haddr,
      portBytes, portBytes_val hp]
  · intro resp ha hp
    obtain ⟨st, addr, p⟩ := resp
    have haddr := decodeAddress_encode addr (portBytes p) ha
    simp only [portBytes] at haddr
    simp [ServerResponse.asBytes, decodeResponse, serverStatus_fromByte_toByte, haddr,
      portBytes, portBytes_val hp]

theorem c2_witness :
    decodeGreeting (encodeGreeting [.noAuth]) = .ok [.noAuth] []
    ∧ decodeRequest
        (encodeRequest ⟨.establishConnection, .domainName [101, 120], 80⟩)
        = .ok ⟨.establishConnection, .domainName [101, 120], 80⟩ []
    ∧ decodeResponse (ServerResponse.asBytes ⟨.requestGranted, emptyAddress, 0⟩)
        = .ok ⟨.requestGranted, emptyAddress, 0⟩ [] :=
  ⟨c2_encode_decode_roundtrip.1 [.noAuth] (by decide) (by decide),
   c2_encode_decode_roundtrip.2.1 ⟨.establishConnection, .domainName [101, 120], 80⟩
     (by decide) (by decide),
   c2_encode_decode_roundtrip.2.2 ⟨.requestGranted, emptyAddress, 0⟩
     (by decide) (by decide)⟩

/-- C3, amended: re-encoding a successfully decoded message reproduces
exactly the consumed bytes for requests and replies; for greetings this
holds only when the stream holds at least `nmethods` bytes after the
two-byte header — when the stream ends early, `take(nauth).read_to_end`
succeeds with fewer methods and the re-encoded count byte differs (see the
counterexample). -/
theorem c3_reencode_consumed_bytes :
    (∀ (b0 b1 : Nat) (t : List Nat) (ms : List AuthMethod) (rest : List Nat),
      (∀ x ∈ b0 :: b1 :: t, x < 256) → b1 ≤ t.length →
      decodeGreeting (b0 :: b1 :: t) = .ok ms rest →
      encodeGreeting ms ++ rest = b0 :: b1 :: t)
    ∧ (∀ (B : List Nat) (r : ClientConnectionRequest) (rest : List Nat),
      (∀ x ∈ B, x < 256) → decodeRequest B = .ok r rest →
      encodeRequest r ++ rest = B)
    ∧ (∀ (B : List Nat) (resp : ServerResponse) (rest : List Nat),
      (∀ x ∈ B, x < 256) → decodeResponse B = .ok resp rest →
      ServerResponse.asBytes resp ++ rest = B) := by
  refine ⟨?_, ?_, ?_⟩
  · intro b0 b1 t ms rest hb hle h
    simp only [decodeGreeting] at h
    by_cases hb0 : b0 = 5
    case neg => rw [if_pos hb0] at h; simp at h
    rw [if_neg (fun hc => hc hb0)] at h
    cases hcol : tryCollectAuth (t.take b1) with
    | none => rw [hcol] at h; simp at h
    | some ms' =>
      rw [hcol] at h
      simp only [DecRes.ok.injEq] at h
      obtain ⟨rfl, rfl⟩ := h
      have hmap := tryCollectAuth_inv hcol
      have hlen : ms'.length = b1 := by
        have := congrArg List.length hmap
        simpa [List.length_take, Nat.min_eq_left hle] using this
      have hb1 : b1 < 256 := hb b1 (by simp)
      simp [encodeGreeting, hmap, hlen, Nat.mod_eq_of_lt hb1, hb0]
  · intro B r rest hb h
    match B with
    | [] => simp [decodeRequest] at h
    | [b0] =>
      simp only [decodeRequest] at h
      by_cases hb0 : b0 ≠ 5
      · rw [if_pos hb0] at h; simp at h
      · rw [if_neg hb0] at h; simp at h
    | [b0, b1] =>
      simp only [decodeRequest] at h
      by_cases hb0 : b0 ≠ 5
      · rw [if_pos hb0] at h; simp at h
      · rw [if_neg hb0] at h; simp at h
    | b0 :: b1 :: b2 :: rest3 =>
      simp only [decodeRequest] at h
      by_cases hb0 : b0 = 5
      case neg => rw [if_pos hb0] at h; simp at h
      rw [if_neg (fun hc => hc hb0)] at h
      by_cases hb2 : b2 = 0
      case neg => rw [if_pos hb2] at h; simp at h
      rw [if_neg (fun hc => hc hb2)] at h
      cases hcmd : ClientCommand.fromByte b1 with
      | none => rw [hcmd] at h; simp at h
      | some cmd =>
        rw [hcmd] at h
        cases haddr : decodeAddress rest3 with
        | err e => rw [haddr] at h; simp at h
        | panicked => rw [haddr] at h; simp at h
        | ok addr rest1 =>
          rw [haddr] at h
          rcases rest1 with _ | ⟨p1, _ | ⟨p2, rest2⟩⟩
          · simp at h
          · simp at h
          · simp only [DecRes.ok.injEq] at h
            obtain ⟨rfl, rfl⟩ := h
            have hainv := decodeAddress_inv (fun x hx => hb x (by simp [hx])) haddr
            have hp1 : p1 < 256 := by
              refine hb p1 ?_
              simp only [List.mem_cons]
              refine Or.inr (Or.inr (Or.inr ?_))
              rw [← hainv]; simp
            have hp2 : p2 < 256 := by
              refine hb p2 ?_
              simp only [List.mem_cons]
              refine Or.inr (Or.inr (Or.inr ?_))
              rw [← hainv]; simp
            have hq1 : (p1 * 256 + p2) / 256 % 256 = p1 := by omega
            have hq2 : (p1 * 256 + p2) % 256 = p2 := by omega
            simp only [encodeRequest, portBytes, hq1, hq2,
              clientCommand_toByte_fromByte hcmd, hb0, hb2, List.cons_append,
              List.append_assoc, List.nil_append]
            rw [hainv]
  · intro B resp rest hb h
    match B with
    | [] => simp [decodeResponse] at h
    | [b0] => simp [decodeResponse] at h
    | [b0, b1] => simp [decodeResponse] at h
    | b0 :: b1 :: b2 :: rest3 =>
      simp only [decodeResponse] at h
      by_cases hb0 : b0 = 5
      case neg => rw [if_pos hb0] at h; simp at h
      rw [if_neg (fun hc => hc hb0)] at h
      cases hst : ServerStatus.fromByte b1 with
      | none => rw [hst] at h; simp at h
      | some st =>
        rw [hst] at h
        simp only [] at h
        by_cases hb2 : b2 = 0
        case neg => rw [if_pos hb2] at h; simp at h
        rw [if_neg (fun hc => hc hb2)] at h
        cases haddr : decodeAddress rest3 with
        | err e => rw [haddr] at h; simp at h
        | panicked => rw [haddr] at h; simp at h
        | ok addr rest1 =>
          rw [haddr] at h
          rcases rest1 with _ | ⟨p1, _ | ⟨p2, rest2⟩⟩
          · simp at h
          · simp at h
          · simp only [DecRes.ok.injEq] at h
            obtain ⟨rfl, rfl⟩ := h
            have hainv := decodeAddress_inv (fun x hx => hb x (by simp [hx])) haddr
            have hp1 : p1 < 256 := by
              refine hb p1 ?_
              simp only [List.mem_cons]
              refine Or.inr (Or.inr (Or.inr ?_))
              rw [← hainv]; simp
            have hp2 : p2 < 256 := by
              refine hb p2 ?_
              simp only [List.mem_cons]
              refine Or.inr (Or.inr (Or.inr ?_))
              rw [← hainv]; simp
            have hq1 : (p1 * 256 + p2) / 256 % 256 = p1 := by omega
            have hq2 : (p1 * 256 + p2) % 256 = p2 := by omega
            simp only [ServerResponse.asBytes, portBytes, hq1, hq2,
              serverStatus_toByte_fromByte hst, hb0, hb2, List.cons_append,
              List.append_assoc, List.nil_append]
            rw [hainv]

/-- C3, counterexample: on `B = 05 02 00` (nmethods = 2 but only one method
byte present) the greeting decoder succeeds with a single method, and its
re-encoding `05 01 00` is not an initial segment of `B`. -/
theorem c3_counterexample :
    decodeGreeting [5, 2, 0] = .ok [.noAuth] []
    ∧ ¬ ∃ t : List Nat, encodeGreeting [.noAuth] ++ t = [5, 2, 0] := by
  refine ⟨by decide, ?_⟩
  rintro ⟨t, h⟩
  simp [encodeGreeting, AuthMethod.toByte] at h

theorem c3_witness :
    encodeGreeting [.noAuth] ++ [] = [5, 1, 0]
    ∧ encodeRequest ⟨.establishConnection, .ipv4 127 0 0 1, 80⟩ ++ []
        = [5, 1, 0, 1, 127, 0, 0, 1, 0, 80]
    ∧ ServerResponse.asBytes ⟨.requestGranted, .ipv4 0 0 0 0, 0⟩ ++ []
        = [5, 0, 0, 1, 0, 0, 0, 0, 0, 0] :=
  ⟨c3_reencode_consumed_bytes.1 5 1 [0] [.noAuth] [] (by decide) (by decide) (by decide),
   c3_reencode_consumed_bytes.2.1 [5, 1, 0, 1, 127, 0, 0, 1, 0, 80]
     ⟨.establishConnection, .ipv4 127 0 0 1, 80⟩ [] (by decide) (by decide),
   c3_reencode_consumed_bytes.2.2 [5, 0, 0, 1, 0, 0, 0, 0, 0, 0]
     ⟨.requestGranted, .ipv4 0 0 0 0, 0⟩ [] (by decide) (by decide)⟩

theorem parseNum_head {radix : Nat} {md : Option Nat} {alz : Bool} {mv : Nat}
    {cs : List Char} {x : Nat × List Char}
    (h : parseNum radix md alz mv cs = some x) :
    ∃ c t, cs = c :: t ∧ isRadixDigit radix c = true := by
  match cs with
  | [] => simp [parseNum] at h
  | c :: t =>
    by_cases hd : isRadixDigit radix c
    · exact ⟨c, t, rfl, hd⟩
    · exfalso
      simp [parseNum, List.takeWhile_cons, hd] at h

theorem parseIpv4_head {cs : List Char} {x : (Nat × Nat × Nat × Nat) × List Char}
    (h : parseIpv4 cs = some x) :
    ∃ c t, cs = c :: t ∧ c.isDigit = true := by
  cases ho : parseOctet cs with
  | none => simp [parseIpv4, ho] at h
  | some v =>
    have ho' : parseNum 10 (some 3) false 255 cs = some v := ho
    obtain ⟨c, t, rfl, hd⟩ := parseNum_head ho'
    exact ⟨c, t, rfl, by simpa [isRadixDigit] using hd⟩

theorem parseSockV4_of_literal {cs : List Char} {q : Nat × Nat × Nat × Nat}
    (h : parseIpv4 cs = some (q, [])) : parseSockV4 cs = none := by
  simp [parseSockV4, h, expectChar]

theorem parseSockV6_of_digit {c : Char} {t : List Char} (hd : c.isDigit = true) :
    parseSockV6 (c :: t) = none := by
  have hne : c ≠ '[' := by
    rintro rfl
    exact absurd hd (by decide)
  simp [parseSockV6, expectChar, hne]

/-- C9, amended: the client's classification parses `dest_addr` as a
`SocketAddr` (`ip:port`), not as a bare IP literal: a V4/V6 socket-address
parse yields the `Ipv4`/`Ipv6` variant, anything else — including a bare
IPv4 literal without a port — becomes `DomainName` of the original string.
No DNS resolution is performed. -/
theorem c9_classification :
    (∀ (cs : List Char) (a b c d p : Nat),
        parseSocketAddr cs = some (.v4 a b c d p) → addressFromStr cs = .ipv4 a b c d)
    ∧ (∀ (cs : List Char) (o : List Nat) (p : Nat),
        parseSocketAddr cs = some (.v6 o p) → addressFromStr cs = .ipv6 o)
    ∧ (∀ cs : List Char, parseSocketAddr cs = none →
        addressFromStr cs = .domainName (utf8Encode cs))
    ∧ (∀ (cs : List Char) (q : Nat × Nat × Nat × Nat),
        parseIpv4Literal cs = some q →
        addressFromStr cs = .domainName (utf8Encode cs)) := by
  refine ⟨?_, ?_, ?_, ?_⟩
  · intro cs a b c d p h; simp [addressFromStr, h]
  · intro cs o p h; simp [addressFromStr, h]
  · intro cs h; simp [addressFromStr, h]
  · intro cs q h
    simp only [parseIpv4Literal] at h
    cases hp : parseIpv4 cs with
    | none => rw [hp] at h; simp at h
    | some v =>
      obtain ⟨q', r⟩ := v
      rw [hp] at h
      cases r with
      | cons c t => simp at h
      | nil =>
        have hv4 : parseSockV4 cs = none := parseSockV4_of_literal hp
        obtain ⟨c, t, rfl, hd⟩ := parseIpv4_head hp
        have hv6 : parseSockV6 (c :: t) = none := parseSockV6_of_digit hd
        simp [addressFromStr, parseSocketAddr, hv4, hv6]

/-- C9, counterexample: `"1.2.3.4"` parses as an IPv4 literal, yet the
classification returns `DomainName "1.2.3.4"`, not `Ipv4`, because the code
parses `dest_addr` as a `SocketAddr` (which requires a `:port`). -/
theorem c9_counterexample :
    parseIpv4Literal ['1', '.', '2', '.', '3', '.', '4'] = some (1, 2, 3, 4)
    ∧ addressFromStr ['1', '.', '2', '.', '3', '.', '4']
        = .domainName [49, 46, 50, 46, 51, 46, 52]
    ∧ Address.domainName [49, 46, 50, 46, 51, 46, 52] ≠ Address.ipv4 1 2 3 4 := by
  decide

theorem c9_witness :
    addressFromStr ['1', '.', '2', '.', '3', '.', '4', ':', '8', '0'] = .ipv4 1 2 3 4
    ∧ addressFromStr ['1', '.', '2', '.', '3', '.', '4']
        = .domainName (utf8Encode ['1', '.', '2', '.', '3', '.', '4']) :=
  ⟨c9_classification.1 ['1', '.', '2', '.', '3', '.', '4', ':', '8', '0'] 1 2 3 4 80
     (by decide),
   c9_classification.2.2.2 ['1', '.', '2', '.', '3', '.', '4'] (1, 2, 3, 4) (by decide)⟩

/-- C10: `Address::as_bytes` on a domain name emits `2 + len(d)` bytes whose
second byte is `len(d) mod 256`, which equals the number of following domain
bytes exactly when `len(d) ≤ 255`. -/
theorem c10_domain_length_truncation (d : List Nat) :
    (Address.domainName d).asBytes.length = 2 + d.length
    ∧ (Address.domainName d).asBytes.get? 1 = some (d.length % 256)
    ∧ (d.length % 256 = d.length ↔ d.length ≤ 255) := by
  refine ⟨by simp [Address.asBytes]; omega, by simp [Address.asBytes], ?_⟩
  constructor
  · intro h
    have : d.length % 256 < 256 := Nat.mod_lt _ (by omega)
    omega
  · intro h
    exact Nat.mod_eq_of_lt (by omega)

end Socks
